import Mathlib

/-!
Verification development for the `trpc-to-openapi` request-to-procedure
resolution and marshalling engine.

The engine's implementation (path matcher, coercion utility, input
extractor, resolver and response mapper, HTTP adapters) is not part of the
checked-in sources, which hold only its type declarations
(`src/types.ts`), its Next.js adapter test (`test/adapters/next.test.ts`)
and the README.  The definitions below are therefore a shallow embedding
modelled from the specification's component contracts, with the README and
the test file as the authoritative record where they speak (custom header
validation, the Next.js adapter's `trpc` query key handling).

Strings that travel through the matcher are embedded as lists of natural
numbers (character codes), so that case folding, percent decoding and
segment splitting are plain executable functions on `List Nat`.
-/

namespace TrpcOpenApi

/-- HTTP methods supported by the engine (`OpenApiMethod` in `src/types.ts`). -/
inductive Method
  | GET
  | POST
  | PATCH
  | PUT
  | DELETE
deriving DecidableEq, Repr

/-- JSON-like runtime values flowing through the engine: extracted inputs,
procedure outputs and response bodies.  Coerced primitives keep their own
constructors (`num`, `boolV`, `bigV`, `dateV`) so the coercion utility's
result kind is observable. -/
inductive Value
  | str (s : String)
  | num (n : Int)
  | boolV (b : Bool)
  | bigV (n : Int)
  | dateV (s : String)
  | obj (fields : List (String × Value))
  | arr (elems : List Value)
  | null
deriving Repr

/-- Domain error codes.  The spec's fixed response mapping lists nine codes
plus `INTERNAL_SERVER_ERROR`; `UNSUPPORTED_MEDIA_TYPE` carries the spec's
415-class content-type extraction error. -/
inductive ErrorCode
  | BAD_REQUEST
  | UNAUTHORIZED
  | FORBIDDEN
  | NOT_FOUND
  | TIMEOUT
  | CONFLICT
  | PRECONDITION_FAILED
  | PAYLOAD_TOO_LARGE
  | METHOD_NOT_SUPPORTED
  | UNSUPPORTED_MEDIA_TYPE
  | INTERNAL_SERVER_ERROR
deriving DecidableEq, Repr

/-- Modelled from the spec: "a fixed mapping from domain error code to HTTP
status" (Response Mapper, section 4.5). -/
def statusOf : ErrorCode → Nat
  | .BAD_REQUEST => 400
  | .UNAUTHORIZED => 401
  | .FORBIDDEN => 403
  | .NOT_FOUND => 404
  | .TIMEOUT => 408
  | .CONFLICT => 409
  | .PRECONDITION_FAILED => 412
  | .PAYLOAD_TOO_LARGE => 413
  | .METHOD_NOT_SUPPORTED => 405
  | .UNSUPPORTED_MEDIA_TYPE => 415
  | .INTERNAL_SERVER_ERROR => 500

/-- Wire name of an error code, used in the `code` field of error bodies
(`TRPC_ERROR_CODE_KEY` in `src/types.ts`). -/
def codeName : ErrorCode → String
  | .BAD_REQUEST => "BAD_REQUEST"
  | .UNAUTHORIZED => "UNAUTHORIZED"
  | .FORBIDDEN => "FORBIDDEN"
  | .NOT_FOUND => "NOT_FOUND"
  | .TIMEOUT => "TIMEOUT"
  | .CONFLICT => "CONFLICT"
  | .PRECONDITION_FAILED => "PRECONDITION_FAILED"
  | .PAYLOAD_TOO_LARGE => "PAYLOAD_TOO_LARGE"
  | .METHOD_NOT_SUPPORTED => "METHOD_NOT_SUPPORTED"
  | .UNSUPPORTED_MEDIA_TYPE => "UNSUPPORTED_MEDIA_TYPE"
  | .INTERNAL_SERVER_ERROR => "INTERNAL_SERVER_ERROR"

/-- A field-level validation issue (`ZodIssue` at the boundary; the spec's
wire contract shape is path, message, expected?, received?). -/
structure Issue where
  path : List String
  message : String
  expected : Option String
  received : Option String
deriving DecidableEq, Repr

/-- A structured domain error (`OpenApiErrorResponse` in `src/types.ts`
carries message, code and optional issues). -/
structure DomainError where
  code : ErrorCode
  message : String
  issues : List Issue
deriving Repr

/-- Per-request invocation outcome: Success(value) or Error(code, message,
issues), consumed by the response mapper. -/
inductive Outcome
  | success (v : Value)
  | error (e : DomainError)
deriving Repr

/-- Serialization of one validation issue into the error body. -/
def issueValue (i : Issue) : Value :=
  .obj ([("path", .arr (i.path.map Value.str)), ("message", .str i.message)]
    ++ (match i.expected with | some e => [("expected", Value.str e)] | none => [])
    ++ (match i.received with | some r => [("received", Value.str r)] | none => []))

/-- Modelled from the spec: wire contract for errors, JSON body shape
with message, code and optional issues. -/
def errBody (message : String) (code : ErrorCode) (issues : List Issue) : Value :=
  .obj ([("message", .str message), ("code", .str (codeName code))]
    ++ (if issues.isEmpty then [] else [("issues", .arr (issues.map issueValue))]))

/-- Response metadata returned by a `responseMeta` / `customResponseMetaFn`
callback: an optional status override plus extra headers. -/
structure ResponseMeta where
  statusOverride : Option Nat
  headers : List (String × String)
deriving Repr

/-- The `customResponseMetaFn` collaborator of the response mapper. -/
abbrev MetaFn : Type := Outcome → ResponseMeta

/-- Final per-request output of the core: status, headers, JSON body. -/
structure ResponseDescriptor where
  status : Nat
  headers : List (String × String)
  body : Value
deriving Repr

/-- Modelled from the spec: Response Mapper (4.5).  Success is 200 unless
`customResponseMetaFn` overrides; errors use the fixed code-to-status
mapping unless overridden; error bodies are the wire error shape. -/
def toResponse (outcome : Outcome) (mf : Option MetaFn) : ResponseDescriptor :=
  let meta : ResponseMeta := match mf with
    | some f => f outcome
    | none => { statusOverride := none, headers := [] }
  match outcome with
  | .success v =>
      { status := meta.statusOverride.getD 200
        headers := meta.headers ++ [("content-type", "application/json")]
        body := v }
  | .error e =>
      { status := meta.statusOverride.getD (statusOf e.code)
        headers := meta.headers ++ [("content-type", "application/json")]
        body := errBody e.message e.code e.issues }

/-- The condition that a supplied `customResponseMetaFn` does not override
the status for a given outcome (absent callbacks never override). -/
def noStatusOverride (mf : Option MetaFn) (o : Outcome) : Prop :=
  ∀ f, mf = some f → (f o).statusOverride = none

/-! ### Schema Coercion Utility (spec 4.2) -/

/-- Target primitive kinds of the coercion utility: number, boolean,
bigint/integer, date. -/
inductive PrimKind
  | number
  | boolean
  | bigint
  | date
deriving DecidableEq, Repr

/-- Decimal digit test on characters. -/
def isDigit (c : Char) : Bool := 48 ≤ c.toNat && c.toNat ≤ 57

/-- Modelled from the spec: "attempt ISO-8601 / RFC-parseable date
construction; invalid strings pass through unchanged".  The model accepts
the ISO `YYYY-MM-DD` calendar-date prefix shape. -/
def isIsoDate (s : String) : Bool :=
  match s.data with
  | y1 :: y2 :: y3 :: y4 :: d1 :: m1 :: m2 :: d2 :: a1 :: a2 :: _ =>
      isDigit y1 && isDigit y2 && isDigit y3 && isDigit y4 && (d1 = '-')
        && isDigit m1 && isDigit m2 && (d2 = '-') && isDigit a1 && isDigit a2
  | _ => false

/-- Modelled from the spec: Schema Coercion Utility (4.2).  Best-effort
conversion of a raw string to the target primitive kind; an unparseable
value is deliberately left as the original string. -/
def coerce (s : String) (k : PrimKind) : Value :=
  match k with
  | .number =>
      match s.toInt? with
      | some n => .num n
      | none => .str s
  | .boolean =>
      if s = "true" then .boolV true
      else if s = "false" then .boolV false
      else .str s
  | .bigint =>
      match s.toInt? with
      | some n => .bigV n
      | none => .str s
  | .date =>
      if isIsoDate s then .dateV s else .str s

/-- Modelled from the spec: arrays of primitives (repeated query keys) are
coerced element-wise. -/
def coerceMany (ss : List String) (k : PrimKind) : List Value :=
  ss.map (fun s => coerce s k)

/-- Whether a value is a successfully converted value of the given kind. -/
def convertedOf (k : PrimKind) : Value → Bool
  | .num _ => k = PrimKind.number
  | .boolV _ => k = PrimKind.boolean
  | .bigV _ => k = PrimKind.bigint
  | .dateV _ => k = PrimKind.date
  | _ => false

/-! ### Path Matcher (spec 4.1) -/

/-- A path string embedded as its list of character codes. -/
def str2codes (s : String) : List Nat := s.data.map Char.toNat

/-- Codes back to a string (for captured path-parameter values). -/
def codes2str (l : List Nat) : String := String.mk (l.map Char.ofNat)

/-- ASCII lower-casing of one character code (case-insensitive routing). -/
def lowerCode (c : Nat) : Nat := if 65 ≤ c ∧ c ≤ 90 then c + 32 else c

/-- Lower-casing of a whole segment, used for comparison only. -/
def lowerSeg (l : List Nat) : List Nat := l.map lowerCode

/-- Modelled from the spec: "strip query string" — keep the path up to the
first question mark (code 63). -/
def stripQuery : List Nat → List Nat
  | [] => []
  | c :: rest => if c = 63 then [] else c :: stripQuery rest

/-- Modelled from the spec: "collapse/ignore a single trailing slash". -/
def dropTrailingSlash (l : List Nat) : List Nat :=
  if l.getLast? = some 47 then l.dropLast else l

/-- Split the path on slash characters (code 47). -/
def splitSegs : List Nat → List (List Nat)
  | [] => [[]]
  | c :: rest =>
      if c = 47 then [] :: splitSegs rest
      else (c :: (splitSegs rest).headI) :: (splitSegs rest).tail

/-- Value of one hexadecimal digit code, if it is one. -/
def hexVal (c : Nat) : Option Nat :=
  if 48 ≤ c ∧ c ≤ 57 then some (c - 48)
  else if 65 ≤ c ∧ c ≤ 70 then some (c - 55)
  else if 97 ≤ c ∧ c ≤ 102 then some (c - 87)
  else none

/-- Modelled from the spec: "decode percent-escapes per segment".  A `%`
(code 37) followed by two hex digits becomes the encoded byte; an invalid
escape is kept verbatim. -/
def percentDecode : List Nat → List Nat
  | [] => []
  | 37 :: h1 :: h2 :: rest =>
      match hexVal h1, hexVal h2 with
      | some a, some b => (16 * a + b) :: percentDecode rest
      | _, _ => 37 :: percentDecode (h1 :: h2 :: rest)
  | c :: rest => c :: percentDecode rest

/-- One segment of a declared path template: a literal (compared
case-insensitively) or a `\x7bname\x7d` placeholder capturing any single
non-empty segment. -/
inductive TemplateSeg
  | lit (l : List Nat)
  | param (name : String)
deriving Repr

/-- Modelled from the spec: segment-wise matching.  Segment counts must
match exactly; literals compare case-insensitively; a placeholder matches
any single non-empty segment whose (percent-decoded) value is captured
verbatim. -/
def matchSegs : List TemplateSeg → List (List Nat) → Option (List (String × List Nat))
  | [], [] => some []
  | .lit l :: ts, s :: ss =>
      if lowerSeg s = lowerSeg l then matchSegs ts ss else none
  | .param n :: ts, s :: ss =>
      if s = [] then none
      else (matchSegs ts ss).map (fun ps => (n, s) :: ps)
  | _, _ => none

/-- Modelled from the spec: normalize the raw path — strip the query
string, collapse a single trailing slash, split into segments,
percent-decode each segment. -/
def normalizePath (p : List Nat) : List (List Nat) :=
  (splitSegs (dropTrailingSlash (stripQuery p))).map percentDecode

/-- Match a normalized inbound path against a template. -/
def matchPath (t : List TemplateSeg) (p : List Nat) : Option (List (String × List Nat)) :=
  matchSegs t (normalizePath p)

/-! ### Procedure descriptors and table (spec section 3) -/

/-- Primitive field kinds a declared input object may use (query and path
inputs are strings coerced to number/boolean/bigint/date). -/
inductive FieldKind
  | stringK
  | numberK
  | booleanK
  | bigintK
  | dateK
deriving DecidableEq, Repr

/-- One declared input field: name, primitive kind, required flag. -/
structure FieldSpec where
  name : String
  kind : FieldKind
  required : Bool
deriving DecidableEq, Repr

/-- Declared input/output shape: the "no input" marker (`z.void`) or an
object of primitive fields. -/
inductive InputShape
  | voidShape
  | objectShape (fields : List FieldSpec)
deriving DecidableEq, Repr

/-- The request body after the (external) JSON/url-encoded parse step:
absent, unparseable, or a parsed value. -/
inductive BodyInput
  | noBody
  | malformed
  | parsed (v : Value)
deriving Repr

/-- The externally constructed per-request context. -/
abbrev Ctx : Type := Value

/-- What a procedure invocation can signal: a structured domain error, or
an unexpected failure not recognized as one. -/
inductive HandlerFailure
  | domain (e : DomainError)
  | unexpected (msg : String)

/-- Modelled from the spec: "Any error not recognized as a domain error is
downgraded to INTERNAL_SERVER_ERROR with a generic message". -/
def normalizeFailure : HandlerFailure → DomainError
  | .domain e => e
  | .unexpected _ => ⟨.INTERNAL_SERVER_ERROR, "Internal server error", []⟩

/-- A procedure descriptor: routing metadata plus schemas and handler.
`requestHeaders` is carried as documentation metadata only — per the README
("these headers will not be validated") the runtime never reads it. -/
structure Proc where
  method : Method
  path : String
  segs : List TemplateSeg
  enabled : Bool
  protect : Bool
  contentTypes : List String
  inputShape : InputShape
  outputShape : InputShape
  requestHeaders : Option InputShape
  handler : Value → Ctx → Except HandlerFailure Value

/-- Modelled from the spec: the matcher walks the table and returns the
first enabled procedure whose method and template match, together with its
position and captured path parameters. -/
def findMatch : List Proc → Method → List Nat → Option (Nat × Proc × List (String × List Nat))
  | [], _, _ => none
  | pr :: rest, m, p =>
      if pr.enabled = true ∧ pr.method = m then
        match matchPath pr.segs p with
        | some pp => some (0, pr, pp)
        | none => (findMatch rest m p).map (fun r => (r.1 + 1, r.2))
      else (findMatch rest m p).map (fun r => (r.1 + 1, r.2))

/-! ### Input Extractor (spec 4.3) -/

/-- First-match association lookup on string maps. -/
def lookupS : List (String × String) → String → Option String
  | [], _ => none
  | (k, v) :: rest, n => if k = n then some v else lookupS rest n

/-- First-match association lookup on value maps. -/
def lookupV : List (String × Value) → String → Option Value
  | [], _ => none
  | (k, v) :: rest, n => if k = n then some v else lookupV rest n

/-- Coercion applied to a raw string according to the declared field kind. -/
def coerceField : FieldKind → String → Value
  | .stringK, s => .str s
  | .numberK, s => coerce s .number
  | .booleanK, s => coerce s .boolean
  | .bigintK, s => coerce s .bigint
  | .dateK, s => coerce s .date

/-- The placeholder names of a path template. -/
def placeholderNames (segs : List TemplateSeg) : List String :=
  segs.filterMap (fun s => match s with | .param n => some n | .lit _ => none)

/-- Modelled from the spec: a declared field is sourced from the matched
path parameters when its name is a path placeholder, else from the query
string. -/
def sourceRaw (pls : List String) (query pathParams : List (String × String))
    (n : String) : Option String :=
  if pls.contains n then lookupS pathParams n else lookupS query n

/-- Assembly of one GET/DELETE input field from its wire channel. -/
def extractGetField (pls : List String) (query pathParams : List (String × String))
    (f : FieldSpec) : Option (String × Value) :=
  (sourceRaw pls query pathParams f.name).map (fun raw => (f.name, coerceField f.kind raw))

/-- The fields of a parsed object body (anything else contributes none). -/
def bodyFields : BodyInput → List (String × Value)
  | .parsed (.obj fs) => fs
  | _ => []

/-- Modelled from the spec: Input Extractor (4.3).  GET/DELETE source every
declared field from path parameters or query (body ignored); POST/PATCH/PUT
check the content type against the declared list (415-class error
otherwise), reject a malformed body (400-class), and source non-placeholder
fields from the body. -/
def extract (m : Method) (cts : List String) (pls : List String) (shape : InputShape)
    (query pathParams : List (String × String)) (body : BodyInput)
    (reqCT : Option String) : Except DomainError Value :=
  match shape with
  | .voidShape => .ok .null
  | .objectShape fields =>
      match m with
      | .GET | .DELETE =>
          .ok (.obj (fields.filterMap (extractGetField pls query pathParams)))
      | _ =>
          if cts.contains (reqCT.getD "application/json") then
            match body with
            | .malformed => .error ⟨.BAD_REQUEST, "Failed to parse request body", []⟩
            | _ =>
                .ok (.obj (fields.filterMap (fun f =>
                  if pls.contains f.name then
                    (lookupS pathParams f.name).map (fun raw => (f.name, coerceField f.kind raw))
                  else
                    (lookupV (bodyFields body) f.name).map (fun v => (f.name, v)))))
          else .error ⟨.UNSUPPORTED_MEDIA_TYPE, "Unsupported content-type", []⟩

/-! ### Schema validation (spec 4.4 step 5, design note 9) -/

/-- Wire name of a field kind, for issue reporting. -/
def kindName : FieldKind → String
  | .stringK => "string"
  | .numberK => "number"
  | .booleanK => "boolean"
  | .bigintK => "bigint"
  | .dateK => "date"

/-- Wire name of a value's runtime type, for issue reporting. -/
def typeName : Value → String
  | .str _ => "string"
  | .num _ => "number"
  | .boolV _ => "boolean"
  | .bigV _ => "bigint"
  | .dateV _ => "date"
  | .obj _ => "object"
  | .arr _ => "array"
  | .null => "undefined"

/-- Whether a value inhabits the declared primitive kind. -/
def kindMatches : FieldKind → Value → Bool
  | .stringK, .str _ => true
  | .numberK, .num _ => true
  | .booleanK, .boolV _ => true
  | .bigintK, .bigV _ => true
  | .dateK, .dateV _ => true
  | _, _ => false

/-- Issues contributed by one declared field against the assembled input. -/
def fieldIssues (fs : List (String × Value)) (f : FieldSpec) : List Issue :=
  match lookupV fs f.name with
  | none =>
      if f.required then [⟨[f.name], "Required", some (kindName f.kind), some "undefined"⟩]
      else []
  | some v =>
      if kindMatches f.kind v then []
      else [⟨[f.name], "Invalid type", some (kindName f.kind), some (typeName v)⟩]

/-- Modelled from the spec: validate the assembled input against the
declared shape, collecting field-level issues in declaration order. -/
def validate (shape : InputShape) (v : Value) : Except (List Issue) Value :=
  match shape with
  | .voidShape => .ok .null
  | .objectShape fields =>
      let fs := match v with | .obj fs => fs | _ => []
      match fields.flatMap (fieldIssues fs) with
      | [] => .ok v
      | issues => .error issues

/-! ### Procedure Resolver & Invoker (spec 4.4) -/

/-- An abstract inbound request descriptor (spec section 6). -/
structure Request where
  method : Method
  path : List Nat
  query : List (String × String)
  body : BodyInput
  headers : List (String × String)

/-- The context-construction collaborator. -/
abbrev CreateContext : Type := Request → Except DomainError Ctx

/-- Result of processing one request: the response descriptor plus
observability counters (handler invocations, context constructions) and
whether the outcome was an error. -/
structure PipelineResult where
  response : ResponseDescriptor
  handlerCalls : Nat
  ctxCalls : Nat
  errored : Bool

/-- Captured path parameters as strings, handed to the extractor. -/
def ppStrings (pp : List (String × List Nat)) : List (String × String) :=
  pp.map (fun x => (x.1, codes2str x.2))

/-- The extractor as invoked by the resolver for a matched procedure. -/
def procExtract (proc : Proc) (pp : List (String × List Nat)) (req : Request) :
    Except DomainError Value :=
  extract req.method proc.contentTypes (placeholderNames proc.segs) proc.inputShape
    req.query (ppStrings pp) req.body (lookupS req.headers "content-type")

/-- An error pipeline result with the given counters. -/
def errResult (e : DomainError) (mf : Option MetaFn) (hc cc : Nat) : PipelineResult :=
  { response := toResponse (.error e) mf, handlerCalls := hc, ctxCalls := cc, errored := true }

/-- Modelled from the spec: Procedure Resolver & Invoker (4.4).  Match,
construct context, extract, validate, invoke, validate output, map the
outcome to a response.  Every failing stage short-circuits before the
handler runs. -/
def runPipeline (table : List Proc) (cc : CreateContext) (mf : Option MetaFn)
    (req : Request) : PipelineResult :=
  match findMatch table req.method req.path with
  | none => errResult ⟨.NOT_FOUND, "Not found", []⟩ mf 0 0
  | some (_, proc, pp) =>
      match cc req with
      | .error e => errResult e mf 0 1
      | .ok ctx =>
          match procExtract proc pp req with
          | .error e => errResult e mf 0 1
          | .ok raw =>
              match validate proc.inputShape raw with
              | .error issues => errResult ⟨.BAD_REQUEST, "Input validation failed", issues⟩ mf 0 1
              | .ok input =>
                  match proc.handler input ctx with
                  | .error f => errResult (normalizeFailure f) mf 1 1
                  | .ok out =>
                      match validate proc.outputShape out with
                      | .error _ =>
                          errResult ⟨.INTERNAL_SERVER_ERROR, "Output validation failed", []⟩ mf 1 1
                      | .ok _ =>
                          { response := toResponse (.success out) mf
                            handlerCalls := 1, ctxCalls := 1, errored := false }

/-! ### Table construction (spec section 3, ProcedureTable invariant) -/

/-- Parse one template segment: `\x7bname\x7d` is a placeholder, anything
else a literal. -/
def parseSeg (seg : List Nat) : TemplateSeg :=
  match seg with
  | 123 :: rest =>
      if rest.getLast? = some 125 then .param (codes2str rest.dropLast) else .lit seg
  | _ => .lit seg

/-- Parse a declared path template string into its segments. -/
def parseTemplate (p : String) : List TemplateSeg :=
  (splitSegs (dropTrailingSlash (str2codes p))).map parseSeg

/-- The comparison key of a declared path template: trailing-slash
normalized and lower-cased. -/
def normKey (p : String) : List Nat := lowerSeg (dropTrailingSlash (str2codes p))

/-- The routing key (method plus normalized template) of a procedure. -/
def routeKey (pr : Proc) : Method × List Nat := (pr.method, normKey pr.path)

/-- The routing keys of the enabled procedures of a router definition. -/
def enabledKeys (defs : List Proc) : List (Method × List Nat) :=
  (defs.filter (fun d => d.enabled)).map routeKey

/-- Modelled from the spec: ProcedureTable construction.  Fails when two
enabled procedures share the same method and path template after
trailing-slash normalization and case-insensitive comparison; otherwise
produces the flattened table with parsed template segments. -/
def buildTable (defs : List Proc) : Except String (List Proc) :=
  if (enabledKeys defs).Nodup then
    .ok (defs.map (fun d => { d with segs := parseTemplate d.path }))
  else .error "duplicate routes"

/-- Whether an `Except` holds a success. -/
def isOkE {ε α : Type} : Except ε α → Bool
  | .ok _ => true
  | .error _ => false

/-- How many table entries structurally match an inbound method and path. -/
def countStructMatches (table : List Proc) (m : Method) (p : List Nat) : Nat :=
  (table.filter (fun pr => pr.enabled && decide (pr.method = m)
    && (matchPath pr.segs p).isSome)).length

/-- Two procedures do not collide when not both enabled with the same
method and normalized path template. -/
def noDupKey (a b : Proc) : Prop :=
  ¬(a.enabled = true ∧ b.enabled = true ∧ routeKey a = routeKey b)

/-! ### Next.js adapter (from `test/adapters/next.test.ts`) -/

/-- A Next.js query value: a single string or an array of strings (the
catch-all route segments). -/
inductive QVal
  | strQ (s : String)
  | arrQ (l : List String)
deriving DecidableEq, Repr

/-- First-match association lookup on Next.js query objects. -/
def lookupQ : List (String × QVal) → String → Option QVal
  | [], _ => none
  | (k, v) :: rest, n => if k = n then some v else lookupQ rest n

/-- The native request shape handed to the Next.js adapter. -/
structure AdapterRequest where
  method : Method
  query : List (String × QVal)
  body : BodyInput
  headers : List (String × String)

/-- The adapter's observable result: the response written plus how often
each callback (handler, createContext, responseMeta, onError) ran. -/
structure AdapterResult where
  response : ResponseDescriptor
  handlerCalls : Nat
  createContextCalls : Nat
  responseMetaCalls : Nat
  onErrorCalls : Nat

/-- Join path segments with slashes. -/
def joinSlash : List String → String
  | [] => ""
  | [s] => s
  | s :: rest => s ++ "/" ++ joinSlash rest

/-- The path carried by the `trpc` query value: a single string, or the
array of catch-all segments joined with slashes. -/
def trpcPathOf : QVal → String
  | .strQ s => s
  | .arrQ l => joinSlash l

/-- The adapter's error message when the `trpc` query key is absent, as
pinned by `test/adapters/next.test.ts`. -/
def missingTrpcMessage : String :=
  "Query \"trpc\" not found - is the `trpc-to-openapi` file named `[...trpc].ts`?"

/-- Remaining query entries handed to the core as input fields (the `trpc`
key is consumed by routing). -/
def adapterQuery (q : List (String × QVal)) : List (String × String) :=
  q.filterMap (fun kv =>
    if kv.1 = "trpc" then none
    else match kv.2 with
      | .strQ s => some (kv.1, s)
      | .arrQ _ => none)

/-- Modelled from the spec: the Next.js transport binding is absent from
the sources; its observable contract is the one pinned by
`test/adapters/next.test.ts` — a missing `trpc` query key yields a 500
error response naming the expected `[...trpc].ts` file, with `onError`
called once and neither `createContext` nor `responseMeta` invoked;
otherwise the `trpc` value (string, or array of segments joined by `/`)
becomes the inbound path and the remaining query keys become input
fields. -/
def nextHandler (table : List Proc) (cc : CreateContext) (mf : Option MetaFn)
    (req : AdapterRequest) : AdapterResult :=
  match lookupQ req.query "trpc" with
  | none =>
      { response :=
          { status := 500
            headers := [("content-type", "application/json")]
            body := errBody missingTrpcMessage .INTERNAL_SERVER_ERROR [] }
        handlerCalls := 0, createContextCalls := 0
        responseMetaCalls := 0, onErrorCalls := 1 }
  | some v =>
      let coreReq : Request :=
        { method := req.method
          path := str2codes ("/" ++ trpcPathOf v)
          query := adapterQuery req.query
          body := req.body
          headers := req.headers }
      let r := runPipeline table cc mf coreReq
      { response := r.response
        handlerCalls := r.handlerCalls
        createContextCalls := r.ctxCalls
        responseMetaCalls := 1
        onErrorCalls := if r.errored then 1 else 0 }

/-! ### Concrete fixtures (the routers of the spec scenarios and of
`test/adapters/next.test.ts`) -/

/-- Input shape of the say-hello procedures: a required string `name`. -/
def helloShapeIn : InputShape := .objectShape [⟨"name", .stringK, true⟩]

/-- Output shape of the say-hello procedures: a string `greeting`. -/
def helloShapeOut : InputShape := .objectShape [⟨"greeting", .stringK, true⟩]

/-- The say-hello handler of the test router: greets the `name` input. -/
def helloHandler : Value → Ctx → Except HandlerFailure Value := fun input _ =>
  match input with
  | .obj fs =>
      match lookupV fs "name" with
      | some (.str n) => .ok (.obj [("greeting", .str ("Hello " ++ n ++ "!"))])
      | _ => .error (.unexpected "no name")
  | _ => .error (.unexpected "bad input")

/-- `sayHelloQuery` of the test router: GET `/say-hello`. -/
def sayHelloProc : Proc :=
  { method := .GET, path := "/say-hello", segs := parseTemplate "/say-hello"
    enabled := true, protect := false, contentTypes := ["application/json"]
    inputShape := helloShapeIn, outputShape := helloShapeOut
    requestHeaders := none, handler := helloHandler }

/-- `sayHelloMutation` of the test router: POST `/say-hello`. -/
def sayHelloPostProc : Proc :=
  { sayHelloProc with method := .POST }

/-- `sayHelloSlash` of the test router: GET `/say/hello`. -/
def sayHelloSlashProc : Proc :=
  { sayHelloProc with path := "/say/hello", segs := parseTemplate "/say/hello" }

/-- The three-procedure router of the `with valid routes` test. -/
def testTable : List Proc := [sayHelloProc, sayHelloPostProc, sayHelloSlashProc]

/-- A context constructor that always succeeds. -/
def ccOk : CreateContext := fun _ => .ok .null

/-- The request `GET /say-hello?name=Lily` as an abstract core request. -/
def reqLily : Request :=
  { method := .GET, path := str2codes "/say-hello", query := [("name", "Lily")]
    body := .noBody, headers := [] }

/-- GET `/say-hello/\x7bname\x7d`: the placeholder-capturing procedure of
the README's path-parameter example. -/
def paramProc : Proc :=
  { sayHelloProc with path := "/say-hello/{name}", segs := parseTemplate "/say-hello/{name}" }

/-- A protected POST procedure (`protect: true`, spec scenario). -/
def protProc : Proc :=
  { method := .POST, path := "/protected", segs := parseTemplate "/protected"
    enabled := true, protect := true, contentTypes := ["application/json"]
    inputShape := .voidShape, outputShape := .voidShape
    requestHeaders := none, handler := fun _ _ => .ok .null }

/-- A context constructor that throws UNAUTHORIZED when the request has no
`authorization` header (the README's Authorization collaborator). -/
def ccAuth : CreateContext := fun req =>
  match lookupS req.headers "authorization" with
  | none => .error ⟨.UNAUTHORIZED, "Unauthorized", []⟩
  | some _ => .ok .null

/-- A POST request to the protected route carrying no authorization. -/
def reqNoAuth : Request :=
  { method := .POST, path := str2codes "/protected", query := []
    body := .noBody, headers := [("content-type", "application/json")] }

/-- A procedure declaring a required custom request header schema. -/
def headerProc : Proc :=
  { method := .GET, path := "/ping", segs := parseTemplate "/ping"
    enabled := true, protect := false, contentTypes := ["application/json"]
    inputShape := .voidShape, outputShape := .voidShape
    requestHeaders := some (.objectShape [⟨"x-api-key", .stringK, true⟩])
    handler := fun _ _ => .ok .null }

/-- A request to the header-declaring procedure without the header. -/
def reqNoApiKey : Request :=
  { method := .GET, path := str2codes "/ping", query := []
    body := .noBody, headers := [] }

/-- GET `/users/\x7bid\x7d` — half of the structurally ambiguous pair. -/
def usersIdProc : Proc :=
  { method := .GET, path := "/users/{id}", segs := parseTemplate "/users/{id}"
    enabled := true, protect := false, contentTypes := ["application/json"]
    inputShape := .objectShape [⟨"id", .stringK, true⟩], outputShape := .voidShape
    requestHeaders := none, handler := fun _ _ => .ok .null }

/-- GET `/users/me` — overlaps `/users/\x7bid\x7d` structurally while
having a distinct template. -/
def usersMeProc : Proc :=
  { usersIdProc with
    path := "/users/me"
    segs := parseTemplate "/users/me"
    inputShape := .voidShape }

/-- The structurally ambiguous (but textually duplicate-free) table. -/
def ambTable : List Proc := [usersIdProc, usersMeProc]

/-- The adapter request of the array-`trpc` test:
`GET` with query `trpc = ['say', 'hello']`, `name = 'Lily'`. -/
def reqTrpcArr : AdapterRequest :=
  { method := .GET
    query := [("trpc", .arrQ ["say", "hello"]), ("name", .strQ "Lily")]
    body := .noBody, headers := [] }

/-- The same request in single-string `trpc` form. -/
def reqTrpcStr : AdapterRequest :=
  { method := .GET
    query := [("trpc", .strQ "say/hello"), ("name", .strQ "Lily")]
    body := .noBody, headers := [] }

/-- An adapter request whose query object has no `trpc` key at all. -/
def reqNoTrpc : AdapterRequest :=
  { method := .GET, query := [], body := .noBody, headers := [] }

/-! ## Theorems

First the supporting lemmas about normalization, matching and table
construction, then one theorem per specification claim. -/

theorem lowerCode_lowerCode (c : Nat) : lowerCode (lowerCode c) = lowerCode c := by
  unfold lowerCode
  split_ifs <;> omega

theorem lowerCode_eq_iff_of_lt {k : Nat} (hk : k < 65) (c : Nat) :
    lowerCode c = k ↔ c = k := by
  unfold lowerCode
  split_ifs <;> omega

theorem hexVal_lowerCode (c : Nat) : hexVal (lowerCode c) = hexVal c := by
  unfold lowerCode hexVal
  split_ifs <;> first
    | rfl
    | omega
    | (exact congrArg some (by omega))

theorem stripQuery_map_lower (p : List Nat) :
    stripQuery (p.map lowerCode) = (stripQuery p).map lowerCode := by
  induction p with
  | nil => rfl
  | cons c rest ih =>
    by_cases hc : c = 63
    · subst hc
      have h63 : lowerCode 63 = 63 := by decide
      simp [stripQuery, h63]
    · have hc' : lowerCode c ≠ 63 := fun h => hc ((lowerCode_eq_iff_of_lt (by omega) c).mp h)
      simp [stripQuery, hc, hc', ih]

theorem dropTrailingSlash_map_lower (p : List Nat) :
    dropTrailingSlash (p.map lowerCode) = (dropTrailingSlash p).map lowerCode := by
  unfold dropTrailingSlash
  rw [List.getLast?_map]
  cases hg : p.getLast? with
  | none => simp
  | some c =>
    by_cases hc : c = 47
    · subst hc
      have h47 : lowerCode 47 = 47 := by decide
      simp [h47, List.map_dropLast]
    · have hc' : lowerCode c ≠ 47 := fun h => hc ((lowerCode_eq_iff_of_lt (by omega) c).mp h)
      simp [hc, hc']

theorem headI_map_lowerSeg (l : List (List Nat)) :
    (l.map lowerSeg).headI = lowerSeg l.headI := by
  cases l with
  | nil => rfl
  | cons a t => simp [lowerSeg]

theorem splitSegs_map_lower (p : List Nat) :
    splitSegs (p.map lowerCode) = (splitSegs p).map lowerSeg := by
  induction p with
  | nil => rfl
  | cons c rest ih =>
    by_cases hc : c = 47
    · subst hc
      have h47 : lowerCode 47 = 47 := by decide
      simp [splitSegs, h47, ih, lowerSeg]
    · have hc' : lowerCode c ≠ 47 := fun h => hc ((lowerCode_eq_iff_of_lt (by omega) c).mp h)
      simp [splitSegs, hc, hc', ih, headI_map_lowerSeg, List.map_tail, lowerSeg]

theorem percentDecode_ne_nil (s : List Nat) (hs : s ≠ []) : percentDecode s ≠ [] := by
  induction s using percentDecode.induct with
  | case1 => exact absurd rfl hs
  | case2 h1 h2 rest a b ha hb ih => simp [percentDecode, ha, hb]
  | case3 h1 h2 rest hn ih => simp [percentDecode]
  | case4 c rest hne ih => simp [percentDecode]

theorem percentDecode_eq_nil_iff (s : List Nat) : percentDecode s = [] ↔ s = [] :=
  ⟨fun h => by
    by_contra hs
    exact percentDecode_ne_nil s hs h,
   fun h => by subst h; rfl⟩

theorem percentDecode_cons_ne (c : Nat) (rest : List Nat) (hc : c ≠ 37) :
    percentDecode (c :: rest) = c :: percentDecode rest := by
  rw [percentDecode.eq_def]
  split
  · rename_i heq; cases heq
  · rename_i heq; injection heq with hh _; exact absurd hh hc
  · rename_i heq; injection heq with e1 e2; rw [e1, e2]

theorem percentDecode_singleton (y : Nat) : percentDecode [y] = [y] := by
  by_cases h : y = 37
  · subst h; rfl
  · rw [percentDecode_cons_ne y [] h]; rfl

theorem percentDecode_cons37_ok (x y : Nat) (r : List Nat) (a b : Nat)
    (hx : hexVal x = some a) (hy : hexVal y = some b) :
    percentDecode (37 :: x :: y :: r) = (16 * a + b) :: percentDecode r := by
  simp [percentDecode, hx, hy]

theorem percentDecode_cons37_fail (x y : Nat) (r : List Nat)
    (hn : ∀ a b, hexVal x = some a → hexVal y = some b → False) :
    percentDecode (37 :: x :: y :: r) = 37 :: percentDecode (x :: y :: r) := by
  cases hx : hexVal x with
  | none => simp [percentDecode, hx]
  | some a =>
    cases hy : hexVal y with
    | none => simp [percentDecode, hx, hy]
    | some b => exact ((hn a b hx hy)).elim

theorem lowerSeg_percentDecode_lowerSeg (s : List Nat) :
    lowerSeg (percentDecode (lowerSeg s)) = lowerSeg (percentDecode s) := by
  induction s using percentDecode.induct with
  | case1 => rfl
  | case2 h1 h2 rest a b hb ha ih =>
    have l37 : lowerCode 37 = 37 := by decide
    have ha' : hexVal (lowerCode h1) = some a := by rw [hexVal_lowerCode]; exact ha
    have hb' : hexVal (lowerCode h2) = some b := by rw [hexVal_lowerCode]; exact hb
    show lowerSeg (percentDecode
        (lowerCode 37 :: lowerCode h1 :: lowerCode h2 :: lowerSeg rest))
      = lowerSeg (percentDecode (37 :: h1 :: h2 :: rest))
    rw [l37, percentDecode_cons37_ok _ _ _ _ _ ha' hb',
      percentDecode_cons37_ok _ _ _ _ _ ha hb]
    show lowerCode (16 * a + b) :: lowerSeg (percentDecode (lowerSeg rest))
      = lowerCode (16 * a + b) :: lowerSeg (percentDecode rest)
    rw [ih]
  | case3 h1 h2 rest hn ih =>
    have l37 : lowerCode 37 = 37 := by decide
    have hn' : ∀ a b, hexVal (lowerCode h1) = some a →
        hexVal (lowerCode h2) = some b → False := by
      intro a b ha hb
      rw [hexVal_lowerCode] at ha hb
      exact hn a b ha hb
    show lowerSeg (percentDecode
        (lowerCode 37 :: lowerCode h1 :: lowerCode h2 :: lowerSeg rest))
      = lowerSeg (percentDecode (37 :: h1 :: h2 :: rest))
    rw [l37, percentDecode_cons37_fail _ _ _ hn', percentDecode_cons37_fail _ _ _ hn]
    show lowerCode 37 :: lowerSeg (percentDecode (lowerSeg (h1 :: h2 :: rest)))
      = lowerCode 37 :: lowerSeg (percentDecode (h1 :: h2 :: rest))
    rw [ih]
  | case4 c rest hne ih =>
    by_cases hc : c = 37
    · subst hc
      cases rest with
      | nil => decide
      | cons x t =>
        cases t with
        | nil =>
          have l37 : lowerCode 37 = 37 := by decide
          show lowerSeg (percentDecode (lowerCode 37 :: [lowerCode x]))
            = lowerSeg (percentDecode [37, x])
          rw [l37]
          show lowerCode 37 :: lowerSeg (percentDecode [lowerCode x])
            = lowerCode 37 :: lowerSeg (percentDecode [x])
          rw [percentDecode_singleton, percentDecode_singleton]
          show lowerCode 37 :: [lowerCode (lowerCode x)] = lowerCode 37 :: [lowerCode x]
          rw [lowerCode_lowerCode]
        | cons y t2 => exact ((hne x y t2 rfl rfl)).elim
    · have hc' : lowerCode c ≠ 37 := fun h => hc ((lowerCode_eq_iff_of_lt (by omega) c).mp h)
      show lowerSeg (percentDecode (lowerCode c :: lowerSeg rest))
        = lowerSeg (percentDecode (c :: rest))
      rw [percentDecode_cons_ne _ _ hc', percentDecode_cons_ne _ _ hc]
      show lowerCode (lowerCode c) :: lowerSeg (percentDecode (lowerSeg rest))
        = lowerCode c :: lowerSeg (percentDecode rest)
      rw [lowerCode_lowerCode, ih]

theorem lowerSeg_eq_nil_iff (s : List Nat) : lowerSeg s = [] ↔ s = [] := by
  simp [lowerSeg]

theorem matchSegs_isSome_lower (t : List TemplateSeg) :
    ∀ ss : List (List Nat),
      (matchSegs t (ss.map (fun s => percentDecode (lowerSeg s)))).isSome
        = (matchSegs t (ss.map percentDecode)).isSome := by
  induction t with
  | nil =>
    intro ss
    cases ss <;> rfl
  | cons tseg ts ih =>
    intro ss
    cases ss with
    | nil => cases tseg <;> rfl
    | cons s ss2 =>
      cases tseg with
      | lit l =>
        show (if lowerSeg (percentDecode (lowerSeg s)) = lowerSeg l then
            matchSegs ts (ss2.map (fun s => percentDecode (lowerSeg s))) else none).isSome
          = (if lowerSeg (percentDecode s) = lowerSeg l then
            matchSegs ts (ss2.map percentDecode) else none).isSome
        rw [lowerSeg_percentDecode_lowerSeg]
        by_cases hq : lowerSeg (percentDecode s) = lowerSeg l
        · rw [if_pos hq, if_pos hq]
          exact ih ss2
        · rw [if_neg hq, if_neg hq]
      | param n =>
        by_cases he : s = []
        · subst he
          rfl
        · have h1 : percentDecode (lowerSeg s) ≠ [] := fun hh =>
            he ((lowerSeg_eq_nil_iff s).mp ((percentDecode_eq_nil_iff _).mp hh))
          have h2 : percentDecode s ≠ [] := fun hh =>
            he ((percentDecode_eq_nil_iff _).mp hh)
          show (if percentDecode (lowerSeg s) = [] then none else
              (matchSegs ts (ss2.map (fun s => percentDecode (lowerSeg s)))).map
                (fun ps => (n, percentDecode (lowerSeg s)) :: ps)).isSome
            = (if percentDecode s = [] then none else
              (matchSegs ts (ss2.map percentDecode)).map
                (fun ps => (n, percentDecode s) :: ps)).isSome
          rw [if_neg h1, if_neg h2]
          simp only [Option.isSome_map']
          exact ih ss2

theorem matchPath_lower_isSome (t : List TemplateSeg) (p : List Nat) :
    (matchPath t (p.map lowerCode)).isSome = (matchPath t p).isSome := by
  unfold matchPath normalizePath
  rw [stripQuery_map_lower, dropTrailingSlash_map_lower, splitSegs_map_lower,
    List.map_map]
  exact matchSegs_isSome_lower t _

theorem findMatch_fst_lower (table : List Proc) (m : Method) (p : List Nat) :
    (findMatch table m (p.map lowerCode)).map (fun r => r.1)
      = (findMatch table m p).map (fun r => r.1) := by
  have key : ∀ (o : Option (Nat × Proc × List (String × List Nat))),
      (o.map (fun r => (r.1 + 1, r.2))).map (fun r => r.1)
        = (o.map (fun r => r.1)).map (fun i => i + 1) := by
    intro o
    cases o <;> rfl
  induction table with
  | nil => rfl
  | cons pr rest ih =>
    have hiso := matchPath_lower_isSome pr.segs p
    by_cases hc : pr.enabled = true ∧ pr.method = m
    · cases hmp : matchPath pr.segs p with
      | some pp =>
        cases hmp2 : matchPath pr.segs (p.map lowerCode) with
        | none => rw [hmp, hmp2] at hiso; simp at hiso
        | some pp2 => simp [findMatch, hc, hmp, hmp2]
      | none =>
        cases hmp2 : matchPath pr.segs (p.map lowerCode) with
        | some pp2 => rw [hmp, hmp2] at hiso; simp at hiso
        | none =>
          simp only [findMatch, hc, and_self, if_true, hmp, hmp2]
          rw [key, key, ih]
    · simp only [findMatch, hc, if_false]
      rw [key, key, ih]

theorem stripQuery_of_not_mem (p : List Nat) (h : (63 : Nat) ∉ p) : stripQuery p = p := by
  induction p with
  | nil => rfl
  | cons c rest ih =>
    have hc : c ≠ 63 := fun hh => h (hh ▸ List.mem_cons_self c rest)
    have hr : (63 : Nat) ∉ rest := fun hh => h (List.mem_cons_of_mem c hh)
    simp [stripQuery, hc, ih hr]

theorem findMatch_congr_norm (table : List Proc) (m : Method) {p1 p2 : List Nat}
    (h : normalizePath p1 = normalizePath p2) :
    findMatch table m p1 = findMatch table m p2 := by
  induction table with
  | nil => rfl
  | cons pr rest ih => simp [findMatch, matchPath, h, ih]

theorem enabledKeys_cons_pos {d : Proc} (rest : List Proc) (hd : d.enabled = true) :
    enabledKeys (d :: rest) = routeKey d :: enabledKeys rest := by
  simp [enabledKeys, List.filter_cons, hd]

theorem enabledKeys_cons_neg {d : Proc} (rest : List Proc) (hd : d.enabled = false) :
    enabledKeys (d :: rest) = enabledKeys rest := by
  simp [enabledKeys, List.filter_cons, hd]

theorem mem_enabledKeys {k : Method × List Nat} {defs : List Proc} :
    k ∈ enabledKeys defs ↔ ∃ b ∈ defs, b.enabled = true ∧ routeKey b = k := by
  simp only [enabledKeys, List.mem_map, List.mem_filter]
  constructor
  · rintro ⟨b, ⟨hb, he⟩, hk⟩
    exact ⟨b, hb, he, hk⟩
  · rintro ⟨b, hb, he, hk⟩
    exact ⟨b, ⟨hb, he⟩, hk⟩

theorem enabledKeys_nodup_iff (defs : List Proc) :
    (enabledKeys defs).Nodup ↔ List.Pairwise noDupKey defs := by
  induction defs with
  | nil => simp [enabledKeys]
  | cons d rest ih =>
    rcases Bool.eq_false_or_eq_true d.enabled with hd | hd
    · rw [enabledKeys_cons_pos rest hd, List.nodup_cons, List.pairwise_cons, ih]
      refine and_congr ?_ Iff.rfl
      constructor
      · intro hnotin b hb hcontra
        exact hnotin (mem_enabledKeys.mpr ⟨b, hb, hcontra.2.1, hcontra.2.2.symm⟩)
      · intro hall hmem
        obtain ⟨b, hb, he, hk⟩ := mem_enabledKeys.mp hmem
        exact hall b hb ⟨hd, he, hk.symm⟩
    · rw [enabledKeys_cons_neg rest hd, List.pairwise_cons, ih]
      constructor
      · intro h
        refine ⟨fun b _ hcontra => ?_, h⟩
        rw [hd] at hcontra
        exact Bool.noConfusion hcontra.1
      · intro h
        exact h.2

theorem findMatch_first :
    ∀ (table : List Proc) (m : Method) (p : List Nat) (i : Nat) (proc : Proc)
      (pp : List (String × List Nat)),
      findMatch table m p = some (i, proc, pp) →
      table[i]? = some proc
      ∧ ∀ (j : Nat) (pj : Proc), j < i → table[j]? = some pj →
          ¬(pj.enabled = true ∧ pj.method = m ∧ (matchPath pj.segs p).isSome = true)
  | [], m, p, i, proc, pp, h => by simp [findMatch] at h
  | pr :: rest, m, p, i, proc, pp, h => by
    unfold findMatch at h
    by_cases hc : pr.enabled = true ∧ pr.method = m
    · rw [if_pos hc] at h
      cases hmp : matchPath pr.segs p with
      | some pp0 =>
        rw [hmp] at h
        obtain ⟨hi, hproc, hpp⟩ : i = 0 ∧ proc = pr ∧ pp = pp0 := by
          simpa using h.symm
        subst hi; subst hproc; subst hpp
        exact ⟨by simp, fun j pj hj _ => absurd hj (Nat.not_lt_zero j)⟩
      | none =>
        rw [hmp] at h
        cases hr : findMatch rest m p with
        | none => rw [hr] at h; simp at h
        | some r =>
          obtain ⟨i', proc', pp'⟩ := r
          rw [hr] at h
          obtain ⟨hi, hproc, hpp⟩ : i = i' + 1 ∧ proc = proc' ∧ pp = pp' := by
            simpa using h.symm
          subst hi; subst hproc; subst hpp
          obtain ⟨hget, hfirst⟩ := findMatch_first rest m p i' proc pp hr
          refine ⟨by simpa using hget, ?_⟩
          intro j pj hj hpj
          cases j with
          | zero =>
            intro hcontra
            have hpj' : pr = pj := by simpa using hpj
            subst hpj'
            rw [hmp] at hcontra
            exact Bool.noConfusion hcontra.2.2
          | succ j' =>
            have hpj' : rest[j']? = some pj := by simpa using hpj
            exact hfirst j' pj (by omega) hpj'
    · rw [if_neg hc] at h
      cases hr : findMatch rest m p with
      | none => rw [hr] at h; simp at h
      | some r =>
        obtain ⟨i', proc', pp'⟩ := r
        rw [hr] at h
        obtain ⟨hi, hproc, hpp⟩ : i = i' + 1 ∧ proc = proc' ∧ pp = pp' := by
          simpa using h.symm
        subst hi; subst hproc; subst hpp
        obtain ⟨hget, hfirst⟩ := findMatch_first rest m p i' proc pp hr
        refine ⟨by simpa using hget, ?_⟩
        intro j pj hj hpj
        cases j with
        | zero =>
          intro hcontra
          have hpj' : pr = pj := by simpa using hpj
          subst hpj'
          exact hc ⟨hcontra.1, hcontra.2.1⟩
        | succ j' =>
          have hpj' : rest[j']? = some pj := by simpa using hpj
          exact hfirst j' pj (by omega) hpj'

theorem findMatch_map_requestHeaders (f : Proc → Option InputShape) :
    ∀ (table : List Proc) (m : Method) (p : List Nat),
      findMatch (table.map (fun pr => { pr with requestHeaders := f pr })) m p
        = (findMatch table m p).map
            (fun r => (r.1, { r.2.1 with requestHeaders := f r.2.1 }, r.2.2))
  | [], _, _ => rfl
  | pr :: rest, m, p => by
    have ih := findMatch_map_requestHeaders f rest m p
    by_cases hc : pr.enabled = true ∧ pr.method = m
    · cases hmp : matchPath pr.segs p with
      | some pp => simp [findMatch, hc, hmp]
      | none =>
          simp only [List.map_cons, findMatch, hc, and_self, if_true, hmp, ih]
          cases findMatch rest m p <;> rfl
    · simp only [List.map_cons, findMatch, hc, if_false, ih]
      cases findMatch rest m p <;> rfl

/-! ### Claim theorems -/

/-- C1: for the router with one GET procedure at `/say-hello` taking
`\x7bname : string\x7d` and returning `\x7bgreeting : string\x7d`, the
request `GET /say-hello?name=Lily` produces a ResponseDescriptor with
status 200 and JSON body `greeting = "Hello Lily!"`; and every successful
invocation has status 200 unless a supplied `customResponseMetaFn`
overrides it. -/
theorem C1_say_hello_scenario :
    (runPipeline [sayHelloProc] ccOk none reqLily).response =
      { status := 200, headers := [("content-type", "application/json")]
        body := .obj [("greeting", .str "Hello Lily!")] }
    ∧ ∀ (v : Value) (mf : Option MetaFn), noStatusOverride mf (.success v) →
        (toResponse (.success v) mf).status = 200 := by
  refine ⟨rfl, ?_⟩
  intro v mf h
  cases mf with
  | none => rfl
  | some f => simp [toResponse, h f rfl]

/-- Witness for C1 at a concrete success outcome with no metadata
callback. -/
theorem C1_say_hello_scenario_witness :
    (toResponse (.success .null) none).status = 200 :=
  C1_say_hello_scenario.2 .null none (fun _ h => Option.noConfusion h)

/-- C2: whenever path matching, context construction, input extraction or
input-schema validation fails, the pipeline short-circuits to an error
outcome and the procedure handler is never invoked (its call count stays
zero). -/
theorem C2_short_circuit (table : List Proc) (cc : CreateContext) (mf : Option MetaFn)
    (req : Request)
    (h : findMatch table req.method req.path = none
      ∨ ∃ i proc pp, findMatch table req.method req.path = some (i, proc, pp)
        ∧ ((∃ e, cc req = .error e)
          ∨ ∃ ctx, cc req = .ok ctx
            ∧ ((∃ e, procExtract proc pp req = .error e)
              ∨ ∃ raw, procExtract proc pp req = .ok raw
                ∧ ∃ issues, validate proc.inputShape raw = .error issues))) :
    (runPipeline table cc mf req).handlerCalls = 0
    ∧ (runPipeline table cc mf req).errored = true := by
  rcases h with h | ⟨i, proc, pp, hm, hrest⟩
  · simp [runPipeline, h, errResult]
  · rcases hrest with ⟨e, hc⟩ | ⟨ctx, hc, hrest⟩
    · simp [runPipeline, hm, hc, errResult]
    · rcases hrest with ⟨e, he⟩ | ⟨raw, he, issues, hv⟩
      · simp [runPipeline, hm, hc, he, errResult]
      · simp [runPipeline, hm, hc, he, hv, errResult]

/-- Witness for C2: the protected POST procedure with a context
constructor that throws UNAUTHORIZED when the `authorization` header is
missing — the handler is never called and the response is 401. -/
theorem C2_short_circuit_witness :
    (runPipeline [protProc] ccAuth none reqNoAuth).handlerCalls = 0
    ∧ (runPipeline [protProc] ccAuth none reqNoAuth).response.status = 401 :=
  ⟨(C2_short_circuit [protProc] ccAuth none reqNoAuth
      (Or.inr ⟨0, protProc, [], rfl,
        Or.inl ⟨⟨.UNAUTHORIZED, "Unauthorized", []⟩, rfl⟩⟩)).1,
   rfl⟩

/-- C3: the coercion utility is total and never signals an error — for
every string and target primitive kind it returns either a converted value
of that kind or the original string unchanged. -/
theorem C3_coerce_total (s : String) (k : PrimKind) :
    convertedOf k (coerce s k) = true ∨ coerce s k = .str s := by
  cases k
  · cases h : s.toInt? <;> simp [coerce, h, convertedOf]
  · by_cases h1 : s = "true" <;> by_cases h2 : s = "false" <;>
      simp [coerce, h1, h2, convertedOf]
  · cases h : s.toInt? <;> simp [coerce, h, convertedOf]
  · by_cases h : isIsoDate s = true <;> simp [coerce, h, convertedOf]

/-- C4 (amended): path matching selects the same procedure for a path and
its lower-cased form, and returns entirely equal results when a single
trailing slash is toggled on a query-free path; captured placeholder
values, however, are taken verbatim from the request path, so lowercasing
the path lowercases the captured values (see the counterexample). -/
theorem C4_matcher_normalization (table : List Proc) (m : Method) (p : List Nat) :
    ((findMatch table m (p.map lowerCode)).map (fun r => r.1)
      = (findMatch table m p).map (fun r => r.1))
    ∧ ((63 : Nat) ∉ p → p.getLast? ≠ some 47 →
        findMatch table m (p ++ [47]) = findMatch table m p) := by
  refine ⟨findMatch_fst_lower table m p, ?_⟩
  intro h63 hend
  refine findMatch_congr_norm table m ?_
  unfold normalizePath
  have h63' : (63 : Nat) ∉ p ++ [47] := by
    intro hmem
    rcases List.mem_append.mp hmem with hmem | hmem
    · exact h63 hmem
    · simp at hmem
  rw [stripQuery_of_not_mem _ h63', stripQuery_of_not_mem _ h63]
  unfold dropTrailingSlash
  rw [List.getLast?_concat, if_pos rfl, List.dropLast_concat, if_neg hend]

/-- Witness for C4 on the test router at `/say-hello`. -/
theorem C4_matcher_normalization_witness :
    (findMatch testTable .GET ((str2codes "/say-hello").map lowerCode)).map (fun r => r.1)
      = (findMatch testTable .GET (str2codes "/say-hello")).map (fun r => r.1)
    ∧ findMatch testTable .GET (str2codes "/say-hello" ++ [47])
      = findMatch testTable .GET (str2codes "/say-hello") :=
  ⟨(C4_matcher_normalization testTable .GET (str2codes "/say-hello")).1,
   (C4_matcher_normalization testTable .GET (str2codes "/say-hello")).2
     (by decide) (by decide)⟩

/-- Counterexample to C4 as stated: with the template
`/say-hello/\x7bname\x7d`, the paths `/say-hello/Lily` and its lower-cased
form both match, but the captured path parameters differ (`Lily` vs
`lily`), so the full match results are not equal. -/
theorem C4_counterexample :
    (findMatch [paramProc] .GET (str2codes "/say-hello/Lily")).map (fun r => r.2.2)
      = some [("name", str2codes "Lily")]
    ∧ (findMatch [paramProc] .GET ((str2codes "/say-hello/Lily").map lowerCode)).map
        (fun r => r.2.2)
      = some [("name", str2codes "lily")]
    ∧ str2codes "Lily" ≠ str2codes "lily" :=
  ⟨rfl, rfl, by decide⟩

/-- C5 (amended): every error response body is exactly the wire shape
(message, code, optional issues); the status is the fixed code-to-status
mapping (BAD_REQUEST 400, UNAUTHORIZED 401, FORBIDDEN 403, NOT_FOUND 404,
TIMEOUT 408, CONFLICT 409, PRECONDITION_FAILED 412, PAYLOAD_TOO_LARGE 413,
METHOD_NOT_SUPPORTED 405, INTERNAL_SERVER_ERROR 500) unless a supplied
`customResponseMetaFn` overrides it; unrecognized failures are normalized
to INTERNAL_SERVER_ERROR with status 500. -/
theorem C5_error_mapping :
    (∀ (e : DomainError) (mf : Option MetaFn),
        (toResponse (.error e) mf).body = errBody e.message e.code e.issues)
    ∧ (∀ (e : DomainError) (mf : Option MetaFn), noStatusOverride mf (.error e) →
        (toResponse (.error e) mf).status = statusOf e.code)
    ∧ statusOf .BAD_REQUEST = 400 ∧ statusOf .UNAUTHORIZED = 401
    ∧ statusOf .FORBIDDEN = 403 ∧ statusOf .NOT_FOUND = 404
    ∧ statusOf .TIMEOUT = 408 ∧ statusOf .CONFLICT = 409
    ∧ statusOf .PRECONDITION_FAILED = 412 ∧ statusOf .PAYLOAD_TOO_LARGE = 413
    ∧ statusOf .METHOD_NOT_SUPPORTED = 405 ∧ statusOf .INTERNAL_SERVER_ERROR = 500
    ∧ (∀ msg, (normalizeFailure (.unexpected msg)).code = .INTERNAL_SERVER_ERROR
        ∧ statusOf (normalizeFailure (.unexpected msg)).code = 500) := by
  refine ⟨?_, ?_, rfl, rfl, rfl, rfl, rfl, rfl, rfl, rfl, rfl, rfl,
    fun msg => ⟨rfl, rfl⟩⟩
  · intro e mf
    cases mf <;> rfl
  · intro e mf h
    cases mf with
    | none => rfl
    | some f => simp [toResponse, h f rfl]

/-- Witness for C5 at a concrete NOT_FOUND error with no metadata
callback. -/
theorem C5_error_mapping_witness :
    (toResponse (.error ⟨.NOT_FOUND, "nope", []⟩) none).status = statusOf .NOT_FOUND :=
  C5_error_mapping.2.1 ⟨.NOT_FOUND, "nope", []⟩ none (fun _ h => Option.noConfusion h)

/-- Counterexample to C5 as stated: a `customResponseMetaFn` overriding
the status makes an error response carry status 418 although the fixed
mapping sends BAD_REQUEST to 400. -/
theorem C5_counterexample :
    (toResponse (.error ⟨.BAD_REQUEST, "x", []⟩)
        (some (fun _ => ⟨some 418, []⟩))).status = 418
    ∧ statusOf .BAD_REQUEST = 400 :=
  ⟨rfl, rfl⟩

/-- C6: for GET and DELETE requests, each declared field is sourced from
the matched path parameters exactly when its name is a path placeholder
and from the query string otherwise — a query binding for a placeholder
name and a path binding for a non-placeholder name are both ignored — and
the request body (and content type) never influences or rejects the
extraction. -/
theorem C6_get_delete_sourcing (m : Method) (hm : m = .GET ∨ m = .DELETE)
    (cts pls : List String) (fields : List FieldSpec)
    (q pp : List (String × String)) (b1 b2 : BodyInput) (ct1 ct2 : Option String)
    (n v : String) :
    extract m cts pls (.objectShape fields) q pp b1 ct1
        = extract m cts pls (.objectShape fields) q pp b2 ct2
    ∧ isOkE (extract m cts pls (.objectShape fields) q pp b1 ct1) = true
    ∧ (n ∈ pls →
        extract m cts pls (.objectShape fields) ((n, v) :: q) pp b1 ct1
          = extract m cts pls (.objectShape fields) q pp b1 ct1)
    ∧ (n ∉ pls →
        extract m cts pls (.objectShape fields) q ((n, v) :: pp) b1 ct1
          = extract m cts pls (.objectShape fields) q pp b1 ct1) := by
  have hGD : ∀ (q' pp' : List (String × String)) (b : BodyInput) (ct : Option String),
      extract m cts pls (.objectShape fields) q' pp' b ct
        = .ok (.obj (fields.filterMap (extractGetField pls q' pp'))) := by
    intro q' pp' b ct
    rcases hm with h | h <;> subst h <;> rfl
  refine ⟨?_, ?_, ?_, ?_⟩
  · rw [hGD, hGD]
  · rw [hGD]; rfl
  · intro hn
    rw [hGD, hGD]
    have he : extractGetField pls ((n, v) :: q) pp = extractGetField pls q pp := by
      funext f
      unfold extractGetField sourceRaw
      by_cases hf : f.name ∈ pls
      · simp [hf]
      · have hne : n ≠ f.name := fun heq => hf (heq ▸ hn)
        simp [hf, lookupS, hne]
    rw [he]
  · intro hn
    rw [hGD, hGD]
    have he : extractGetField pls q ((n, v) :: pp) = extractGetField pls q pp := by
      funext f
      unfold extractGetField sourceRaw
      by_cases hf : f.name ∈ pls
      · have hne : n ≠ f.name := fun heq => hn (heq ▸ hf)
        simp [hf, lookupS, hne]
      · simp [hf]
    rw [he]

/-- Witness for C6: a query binding for the placeholder field `id` is
ignored by GET extraction. -/
theorem C6_get_delete_sourcing_witness :
    extract .GET [] ["id"] (.objectShape [⟨"id", .stringK, true⟩])
        [("id", "shadow"), ("q", "1")] [("id", "7")] .noBody none
      = extract .GET [] ["id"] (.objectShape [⟨"id", .stringK, true⟩])
        [("q", "1")] [("id", "7")] .noBody none :=
  (C6_get_delete_sourcing .GET (Or.inl rfl) [] ["id"] [⟨"id", .stringK, true⟩]
    [("q", "1")] [("id", "7")] .noBody .noBody none none "id" "shadow").2.2.1
    (by simp)

/-- C7 (amended): declared custom request-header schemas are documentation
metadata only — per the README ("these headers will not be validated") the
runtime pipeline never reads them, so changing them never changes any
response. -/
theorem C7_headers_not_validated (table : List Proc) (cc : CreateContext)
    (mf : Option MetaFn) (req : Request) (f : Proc → Option InputShape) :
    runPipeline (table.map (fun pr => { pr with requestHeaders := f pr })) cc mf req
      = runPipeline table cc mf req := by
  unfold runPipeline
  rw [findMatch_map_requestHeaders]
  cases h : findMatch table req.method req.path with
  | none => rfl
  | some r => obtain ⟨i, proc, pp⟩ := r; rfl

/-- Counterexample to C7 as stated: a request missing the declared
required custom header `x-api-key` is not rejected — the procedure runs
and the response is 200. -/
theorem C7_counterexample :
    (runPipeline [headerProc] ccOk none reqNoApiKey).response.status = 200
    ∧ (runPipeline [headerProc] ccOk none reqNoApiKey).handlerCalls = 1 :=
  ⟨rfl, rfl⟩

/-- C8 (amended): a built table has no two enabled procedures sharing
method and normalized path template, and construction fails when the input
does; the matcher returns the first matching entry (every earlier entry
does not match), though distinct templates may still both structurally
match one concrete path (see the counterexample). -/
theorem C8_uniqueness :
    (∀ (defs t : List Proc), buildTable defs = .ok t → List.Pairwise noDupKey defs)
    ∧ (∀ defs : List Proc, ¬ List.Pairwise noDupKey defs →
        isOkE (buildTable defs) = false)
    ∧ (∀ (table : List Proc) (m : Method) (p : List Nat) (i : Nat) (proc : Proc)
        (pp : List (String × List Nat)),
        findMatch table m p = some (i, proc, pp) →
        table[i]? = some proc
        ∧ ∀ (j : Nat) (pj : Proc), j < i → table[j]? = some pj →
            ¬(pj.enabled = true ∧ pj.method = m ∧ (matchPath pj.segs p).isSome = true)) := by
  refine ⟨?_, ?_, findMatch_first⟩
  · intro defs t h
    unfold buildTable at h
    by_cases hn : (enabledKeys defs).Nodup
    · exact (enabledKeys_nodup_iff defs).mp hn
    · rw [if_neg hn] at h
      exact Except.noConfusion h
  · intro defs h
    unfold buildTable
    rw [if_neg (fun hn => h ((enabledKeys_nodup_iff defs).mp hn))]
    rfl

/-- Witness for C8 on the test router: construction succeeds, so no two
enabled procedures collide. -/
theorem C8_uniqueness_witness :
    List.Pairwise noDupKey testTable :=
  C8_uniqueness.1 testTable testTable rfl

/-- Counterexample to C8 as stated: the table with templates
`/users/\x7bid\x7d` and `/users/me` passes construction (the normalized
templates are distinct), yet both entries structurally match the concrete
path `/users/me` — construction does not guarantee at most one structural
match. -/
theorem C8_counterexample :
    buildTable ambTable = .ok ambTable
    ∧ countStructMatches ambTable .GET (str2codes "/users/me") = 2 :=
  ⟨rfl, rfl⟩

/-- C9: a Next.js adapter request whose query object has no `trpc` key is
answered with status 500 and the pinned error body; `onError` runs exactly
once while `createContext` and `responseMeta` never run. -/
theorem C9_missing_trpc (table : List Proc) (cc : CreateContext) (mf : Option MetaFn)
    (req : AdapterRequest) (h : lookupQ req.query "trpc" = none) :
    nextHandler table cc mf req =
      { response :=
          { status := 500
            headers := [("content-type", "application/json")]
            body := errBody missingTrpcMessage .INTERNAL_SERVER_ERROR [] }
        handlerCalls := 0, createContextCalls := 0
        responseMetaCalls := 0, onErrorCalls := 1 } := by
  simp [nextHandler, h]

/-- Witness for C9 at the concrete empty-query request. -/
theorem C9_missing_trpc_witness :
    nextHandler [] ccOk none reqNoTrpc =
      { response :=
          { status := 500
            headers := [("content-type", "application/json")]
            body := errBody missingTrpcMessage .INTERNAL_SERVER_ERROR [] }
        handlerCalls := 0, createContextCalls := 0
        responseMetaCalls := 0, onErrorCalls := 1 } :=
  C9_missing_trpc [] ccOk none reqNoTrpc rfl

/-- C10: an array-valued `trpc` query parameter is read as the ordered
path segments — `trpc = ['say', 'hello']` with `name = 'Lily'` invokes the
procedure at `/say/hello` and returns 200 with `Hello Lily!`, identically
to the single-string `trpc = 'say/hello'` form. -/
theorem C10_array_trpc :
    nextHandler testTable ccOk none reqTrpcArr =
      { response :=
          { status := 200, headers := [("content-type", "application/json")]
            body := .obj [("greeting", .str "Hello Lily!")] }
        handlerCalls := 1, createContextCalls := 1
        responseMetaCalls := 1, onErrorCalls := 0 }
    ∧ (nextHandler testTable ccOk none reqTrpcArr).response =
        (nextHandler testTable ccOk none reqTrpcStr).response :=
  ⟨rfl, rfl⟩

end TrpcOpenApi
